import Mathlib

/-!
Shallow embedding of `chanrpc` (src/chanrpc/chanrpc.go), an in-process RPC
dispatch core: a `Server` owns a registry of operations of three fixed shapes
and a bounded call queue; `Client`s push Call Envelopes (`CallInfo`) onto the
queue and receive Return Envelopes (`RetInfo`) on their private channels.

Modelling conventions:
* Go `interface{}` argument/result values are modelled by the inductive `Val`.
* The three registered function shapes (`func([]interface{})`,
  `func([]interface{}) interface{}`, `func([]interface{}) []interface{}`)
  become the tagged union `FuncVal`; a body that panics is modelled by the
  function returning `Except.error msg` where `msg` stands for the panic value.
  `FuncVal.other` stands for an `interface{}` value of none of the three shapes.
* Channels are modelled by explicit FIFO buffers (`List`); a channel reference
  inside an envelope is an identifier (`Nat`), `none` modelling a nil channel.
* A Go panic escaping a modelled function is an `Except.error` at its type;
  `recover` is the corresponding `match` on that `Except`.
* `conf.LenStackBuf` (external config package, not under src/) is the field
  `Conf.lenStackBuf`; the stack-trace annotation of a recovered panic is
  modelled by the Boolean `withTrace` flag on `Err.panicked`, true exactly when
  `LenStackBuf > 0` (the trace bytes themselves are not representable).
-/

/-- Dynamically typed values (Go `interface{}`) used as registry identifiers
and as call arguments/results. -/
inductive Val where
  | vnil : Val
  | vint (n : Int) : Val
  | vstr (s : String) : Val
deriving DecidableEq, Repr

/-- Error values surfaced by the chanrpc core (Go `error` results).
`sendOnClosed` is the runtime error raised by a send on a closed channel and
recovered into an error value by `Client.call` / `Server.ret`; `panicked m t`
is the error built by `Server.Exec`'s deferred recover from a panic with
message `m`, `t` recording whether a stack trace was appended
(`conf.LenStackBuf > 0`). -/
inductive Err where
  | notRegistered (id : Val) : Err
  | retTypeMismatch (id : Val) : Err
  | chanFull : Err
  | sendOnClosed : Err
  | serverClosed : Err
  | panicked (msg : String) (withTrace : Bool) : Err
deriving DecidableEq, Repr

/-- Callback values (Go `interface{}` holding a callback function), classified
by the type switch in `Client.AsynCall` / `Client.Cb`: `cb0` is
`func(error)`, `cb1` is `func(interface{}, error)`, `cbN` is
`func([]interface{}, error)`, and `cbOther` any other value. The `tag`
identifies the particular callback. -/
inductive CbVal where
  | cb0 (tag : Nat) : CbVal
  | cb1 (tag : Nat) : CbVal
  | cbN (tag : Nat) : CbVal
  | cbOther (tag : Nat) : CbVal
deriving DecidableEq, Repr

/-- The `ret interface{}` field of a Return Envelope: `rnil` is the nil
interface, `rsingle` a shape-1 result, `rseq` a `[]interface{}` shape-N
result (a nil or empty Go slice is `rseq []`, which is a non-nil interface). -/
inductive RetVal where
  | rnil : RetVal
  | rsingle (v : Val) : RetVal
  | rseq (l : List Val) : RetVal
deriving DecidableEq, Repr

/-- Return Envelope (`RetInfo`): result, error, copied callback. -/
structure RetInfo where
  ret : RetVal
  err : Option Err
  cb : Option CbVal
deriving DecidableEq, Repr

/-- A registered operation (Go function value), one of the three shapes, or
`other`: a value of none of those shapes. A body returning `Except.error m`
models the body panicking with message `m`. -/
inductive FuncVal where
  | f0 (f : List Val → Except String Unit) : FuncVal
  | f1 (f : List Val → Except String Val) : FuncVal
  | fN (f : List Val → Except String (List Val)) : FuncVal
  | other (v : Val) : FuncVal

/-- Call Envelope (`CallInfo`): operation, arguments, optional return-channel
reference (an identifier; `none` is Go's nil channel), optional callback. -/
structure CallInfo where
  f : FuncVal
  args : List Val
  chanRet : Option Nat
  cb : Option CbVal

/-- Configuration collaborator `conf` (not under src/): `LenStackBuf` bounds
the stack-trace capture on recovered panics. -/
structure Conf where
  lenStackBuf : Nat

/-- Server state: the id→function registry (an association list; `Register`
keeps keys unique), the call queue `ChanCall` modelled as its buffer contents
plus its capacity and closed flag. -/
structure Server where
  functions : List (Val × FuncVal)
  chanCall : List CallInfo
  cap : Nat
  closed : Bool

/-- First-match association-list lookup, modelling the Go map read
`s.functions[id]` (keys are unique under the `Register` discipline). -/
def lookupFn (fns : List (Val × FuncVal)) (id : Val) : Option FuncVal :=
  match fns with
  | [] => none
  | (k, f) :: rest => if k = id then some f else lookupFn rest id

/-- `Server.Register`: panics (modelled as `Except.error` with the panic
message) when the function is of none of the three shapes, or when the id is
already registered; otherwise stores the mapping. The shape switch runs
before the duplicate check, as in the source. -/
def Server.register (s : Server) (id : Val) (f : FuncVal) : Except String Server :=
  match f with
  | .other _ => .error "definition of function is invalid"
  | _ =>
    if (lookupFn s.functions id).isSome then
      .error "already registered"
    else
      .ok { s with functions := s.functions ++ [(id, f)] }

/-- `Server.ret`: delivers a Return Envelope on the envelope's return channel.
Returns early when the channel reference is nil; otherwise copies the
envelope's callback into the Return Envelope and sends it. The result is
Exec's returned error (always `none` here: the client channels are never
closed in this source, so the send never panics) together with the list of
(channel, envelope) deliveries performed. -/
def Server.ret (ci : CallInfo) (ri : RetInfo) : Option Err × List (Nat × RetInfo) :=
  match ci.chanRet with
  | none => (none, [])
  | some c => (none, [(c, { ri with cb := ci.cb })])

/-- The body of `Server.Exec` without its deferred recover: runs the type
switch on the envelope's function, executes it, and delivers the result via
`Server.ret`. `Except.error m` models a panic with message `m` escaping the
body — either the operation body's own panic, or the `panic("bug")` on an
envelope whose function has none of the three shapes. -/
def execRaw (ci : CallInfo) : Except String (Option Err × List (Nat × RetInfo)) :=
  match ci.f with
  | .f0 f =>
    match f ci.args with
    | .ok _ => .ok (Server.ret ci ⟨.rnil, none, none⟩)
    | .error m => .error m
  | .f1 f =>
    match f ci.args with
    | .ok v => .ok (Server.ret ci ⟨.rsingle v, none, none⟩)
    | .error m => .error m
  | .fN f =>
    match f ci.args with
    | .ok l => .ok (Server.ret ci ⟨.rseq l, none, none⟩)
    | .error m => .error m
  | .other _ => .error "bug"

/-- Outcome of one `Server.Exec` invocation: the error value Exec returns and
the Return Envelopes it pushed (paired with their target channel). -/
structure ExecOut where
  returned : Option Err
  sent : List (Nat × RetInfo)
deriving Repr

/-- The error built by Exec's deferred recover from a panic with message `m`:
annotated with a captured stack trace when `conf.LenStackBuf > 0`, message
only when it is zero. -/
def recoverErr (cfg : Conf) (m : String) : Err :=
  .panicked m (decide (0 < cfg.lenStackBuf))

/-- `Server.Exec`: runs the body and, via the deferred recover, converts any
panic into an error value which is both returned and delivered as the call's
Return Envelope error. -/
def Server.exec (cfg : Conf) (ci : CallInfo) : ExecOut :=
  match execRaw ci with
  | .ok (e, sent) => ⟨e, sent⟩
  | .error m =>
    let e := recoverErr cfg m
    ⟨some e, (Server.ret ci ⟨.rnil, some e, none⟩).2⟩

/-- `Server.Go` (self-targeted fire-and-forget call): looks the id up, does
nothing if absent; otherwise pushes an envelope with nil return channel and
nil callback. The send's deferred recover silently discards the panic when
the queue is closed; the blocking wait on a full open queue is abstracted as
an eventual successful push. -/
def Server.go (s : Server) (id : Val) (args : List Val) : Server :=
  match lookupFn s.functions id with
  | none => s
  | some f =>
    if s.closed then s
    else { s with chanCall := s.chanCall ++ [⟨f, args, none, none⟩] }

/-- `Server.Close`: closes the call queue, then drains every envelope still
resident in it, delivering to each (via `Server.ret`) a Return Envelope with
the terminal "chanrpc server closed" error. Returns the closed server and the
deliveries in drain order. -/
def Server.close (s : Server) : Server × List (Nat × RetInfo) :=
  let drained := s.chanCall.foldl
    (fun acc ci => acc ++ (Server.ret ci ⟨.rnil, some .serverClosed, none⟩).2) []
  ({ s with chanCall := [], closed := true }, drained)

/-- `Server.Open`: binds a new client to the server, with a capacity-1 private
synchronous return channel and a capacity-`l` asynchronous return channel.
The channels are modelled by their buffered contents; `pendingAsynCall` is
the Go `int` counter. -/
structure Client where
  chanSyncRet : List RetInfo
  chanAsynRet : List RetInfo
  pendingAsynCall : Int
deriving DecidableEq, Repr

/-- `Server.Open` builds a fresh client with empty channels and a zero
pending-async-call counter. -/
def Server.open (_s : Server) : Client :=
  ⟨[], [], 0⟩

/-- Channel identifier of the modelled client's private synchronous return
channel (`c.chanSyncRet`). -/
def syncChan : Nat := 0

/-- Channel identifier of the modelled client's asynchronous return channel
(`c.ChanAsynRet`). -/
def asynChan : Nat := 1

/-- `Client.f`: resolves the operation by id and requested shape `n`
(0, 1 or 2, as passed by the call sites): a missing id yields a
"function not registered" error, a registered function of the wrong shape a
"return type mismatch" error. The source's `panic("bug")` branch for
`n ∉ {0,1,2}` is unreachable from its call sites (which pass the literals
0, 1 and 2) and is folded into the mismatch branch here. -/
def Client.f (s : Server) (id : Val) (n : Nat) : Except Err FuncVal :=
  match lookupFn s.functions id with
  | none => .error (.notRegistered id)
  | some f =>
    let ok : Bool :=
      match n, f with
      | 0, .f0 _ => true
      | 1, .f1 _ => true
      | 2, .fN _ => true
      | _, _ => false
    if ok then .ok f else .error (.retTypeMismatch id)

/-- `Client.call`: pushes an envelope onto the server's call queue. A send on
the closed queue panics and is recovered into an error value; the
non-blocking push returns a "chanrpc channel full" error when the queue
holds `cap` envelopes; the blocking push's wait on a full open queue is
abstracted as an eventual successful push. Returns the updated server on
success. -/
def Client.call (s : Server) (ci : CallInfo) (block : Bool) : Except Err Server :=
  if s.closed then .error .sendOnClosed
  else if block then .ok { s with chanCall := s.chanCall ++ [ci] }
  else if s.chanCall.length < s.cap then .ok { s with chanCall := s.chanCall ++ [ci] }
  else .error .chanFull

/-- Submission phase of `Client.Call0` (everything before the blocking read of
`chanSyncRet`): resolve shape 0, then blocking-push an envelope whose return
channel is the synchronous channel. On error the server is returned
unchanged. -/
def Client.call0submit (s : Server) (id : Val) (args : List Val) : Option Err × Server :=
  match Client.f s id 0 with
  | .error e => (some e, s)
  | .ok f =>
    match Client.call s ⟨f, args, some syncChan, none⟩ true with
    | .error e => (some e, s)
    | .ok s' => (none, s')

/-- Submission phase of `Client.Call1`: resolve shape 1, then blocking-push an
envelope whose return channel is the synchronous channel. -/
def Client.call1submit (s : Server) (id : Val) (args : List Val) : Option Err × Server :=
  match Client.f s id 1 with
  | .error e => (some e, s)
  | .ok f =>
    match Client.call s ⟨f, args, some syncChan, none⟩ true with
    | .error e => (some e, s)
    | .ok s' => (none, s')

/-- Submission phase of `Client.CallN`: resolve shape 2, then blocking-push an
envelope whose return channel is the synchronous channel. -/
def Client.callNsubmit (s : Server) (id : Val) (args : List Val) : Option Err × Server :=
  match Client.f s id 2 with
  | .error e => (some e, s)
  | .ok f =>
    match Client.call s ⟨f, args, some syncChan, none⟩ true with
    | .error e => (some e, s)
    | .ok s' => (none, s')

/-- The Go single-value type assertion `x.([]interface{})`: succeeds on an
interface holding a slice, panics (modelled as `Except.error` with the
runtime's conversion message) on the nil interface or on any other value. -/
def assertSeq (r : RetVal) : Except String (List Val) :=
  match r with
  | .rseq l => .ok l
  | .rnil => .error "interface conversion: interface is nil, not a slice"
  | .rsingle _ => .error "interface conversion: interface does not hold a slice"

/-- Receive phase of `Client.Call0` on the Return Envelope read from
`chanSyncRet`: returns the envelope's error field. -/
def Client.call0recv (ri : RetInfo) : Option Err :=
  ri.err

/-- Receive phase of `Client.Call1`: returns the envelope's result and error
fields (no type assertion is performed on the result). -/
def Client.call1recv (ri : RetInfo) : RetVal × Option Err :=
  (ri.ret, ri.err)

/-- Receive phase of `Client.CallN`: performs the type assertion
`ri.ret.([]interface\x7b\x7d)` on the result before returning it with the
error; `Except.error` models the assertion's panic escaping `CallN` (there
is no recover on this path). -/
def Client.callNrecv (ri : RetInfo) : Except String (List Val × Option Err) :=
  match assertSeq ri.ret with
  | .error m => .error m
  | .ok l => .ok (l, ri.err)

/-- A recorded callback invocation, by callback shape: the callback's tag and
the arguments it was invoked with. -/
inductive CbInvoke where
  | i0 (tag : Nat) (err : Option Err) : CbInvoke
  | i1 (tag : Nat) (ret : RetVal) (err : Option Err) : CbInvoke
  | iN (tag : Nat) (ret : List Val) (err : Option Err) : CbInvoke
deriving DecidableEq, Repr

/-- `Client.Cb`: runs the type switch on the Return Envelope's callback,
invokes it with the shape-specific arguments, then decrements the
pending-async-call counter. For a sequence-shaped callback the result is
first put through the type assertion `ri.ret.([]interface\x7b\x7d)`, whose
panic (on a nil result) escapes before the callback is invoked or the
counter decremented; a nil or wrong-shaped callback hits `panic("bug")`.
`Except.error` models a panic escaping `Cb`. -/
def Client.cbRun (c : Client) (ri : RetInfo) : Except String (CbInvoke × Client) :=
  match ri.cb with
  | some (.cb0 t) =>
    .ok (.i0 t ri.err, { c with pendingAsynCall := c.pendingAsynCall - 1 })
  | some (.cb1 t) =>
    .ok (.i1 t ri.ret ri.err, { c with pendingAsynCall := c.pendingAsynCall - 1 })
  | some (.cbN t) =>
    match assertSeq ri.ret with
    | .error m => .error m
    | .ok l => .ok (.iN t l ri.err, { c with pendingAsynCall := c.pendingAsynCall - 1 })
  | _ => .error "bug"

/-- The internal `Client.asynCall`: resolve the operation for the callback's
shape, non-blocking-push an envelope carrying the asynchronous return channel
and the callback, and increment the pending-async-call counter only after a
successful push. On error the server and client are untouched (the `Except`
carries only the error). -/
def Client.asynCall (s : Server) (c : Client) (id : Val) (args : List Val)
    (cb : CbVal) (n : Nat) : Except Err (Server × Client) :=
  match Client.f s id n with
  | .error e => .error e
  | .ok f =>
    match Client.call s ⟨f, args, some asynChan, some cb⟩ false with
    | .error e => .error e
    | .ok s' => .ok (s', { c with pendingAsynCall := c.pendingAsynCall + 1 })

/-- Outcome of the exported `Client.AsynCall`: the resulting server and client
states, the callback invocations performed inline on the calling thread, and
the message of a panic escaping the call (nil or invalid-shaped callback),
if any. -/
structure AsynOut where
  s : Server
  c : Client
  inline : List CbInvoke
  panicMsg : Option String

/-- The exported `Client.AsynCall` after extraction of the trailing callback
argument: dispatch on the callback's shape (an invalid shape panics), run the
internal `asynCall` with the matching requested shape, and on any error
invoke the callback immediately and inline with that error and a nil/empty
result. -/
def Client.AsynCall (s : Server) (c : Client) (id : Val) (args : List Val)
    (cb : CbVal) : AsynOut :=
  match cb with
  | .cb0 t =>
    match Client.asynCall s c id args cb 0 with
    | .error e => ⟨s, c, [.i0 t (some e)], none⟩
    | .ok (s', c') => ⟨s', c', [], none⟩
  | .cb1 t =>
    match Client.asynCall s c id args cb 1 with
    | .error e => ⟨s, c, [.i1 t .rnil (some e)], none⟩
    | .ok (s', c') => ⟨s', c', [], none⟩
  | .cbN t =>
    match Client.asynCall s c id args cb 2 with
    | .error e => ⟨s, c, [.iN t [] (some e)], none⟩
    | .ok (s', c') => ⟨s', c', [], none⟩
  | .cbOther _ => ⟨s, c, [], some "definition of callback function is invalid"⟩

/-- Outcome of `Client.Close`: the loop terminated with the counter at zero
(`done`), a panic escaped a `Cb` invocation (`panicked`), or the channel was
exhausted with the counter still positive, i.e. the read blocks forever
(`blocked`). Each constructor records the callback invocations performed
before that point, in order. -/
inductive CloseOut where
  | done (invs : List CbInvoke) (c : Client) : CloseOut
  | panicked (invs : List CbInvoke) (msg : String) : CloseOut
  | blocked (invs : List CbInvoke) (c : Client) : CloseOut
deriving Repr

/-- `Client.Close`: while the pending-async-call counter is positive, read the
next Return Envelope from the asynchronous channel and run `Client.Cb` on
it. `stream` is the sequence of envelopes the channel yields. -/
def Client.closeLoop (c : Client) (stream : List RetInfo) : CloseOut :=
  if c.pendingAsynCall ≤ 0 then .done [] c
  else
    match stream with
    | [] => .blocked [] c
    | ri :: rest =>
      match Client.cbRun c ri with
      | .error m => .panicked [] m
      | .ok (inv, c') =>
        match Client.closeLoop c' rest with
        | .done invs c'' => .done (inv :: invs) c''
        | .panicked invs m => .panicked (inv :: invs) m
        | .blocked invs c'' => .blocked (inv :: invs) c''

/-- State of the owner-loop trace model: the server's call-queue buffer, the
log of all deliveries to client return channels (in delivery order), the log
of dispatched envelopes (in execution order) and the log of submitted
envelopes (in submission order). An envelope's client is identified by its
`chanRet` channel identifier. -/
structure Sys where
  queue : List CallInfo
  delivered : List (Nat × RetInfo)
  execLog : List CallInfo
  subLog : List CallInfo

/-- One event of the trace model: some client successfully pushes an envelope
onto the call queue (the queue is a multi-producer FIFO channel), or the
external owner loop pops the front envelope and runs `Server.Exec` on it. -/
inductive Act where
  | submit (ci : CallInfo) : Act
  | dispatch : Act

/-- Small-step semantics of the trace model. `dispatch` on an empty queue is a
no-op (the owner loop blocks). -/
def sysStep (cfg : Conf) (s : Sys) : Act → Sys
  | .submit ci =>
    { s with queue := s.queue ++ [ci], subLog := s.subLog ++ [ci] }
  | .dispatch =>
    match s.queue with
    | [] => s
    | ci :: rest =>
      { s with
        queue := rest
        execLog := s.execLog ++ [ci]
        delivered := s.delivered ++ (Server.exec cfg ci).sent }

/-- Runs a trace from the empty initial state. -/
def sysRun (cfg : Conf) (acts : List Act) : Sys :=
  acts.foldl (sysStep cfg) ⟨[], [], [], []⟩

/-- The envelopes of a list that belong to client channel `cid`. -/
def byClient (cid : Nat) (l : List CallInfo) : List CallInfo :=
  l.filter fun ci => decide (ci.chanRet = some cid)

/-- The Return Envelopes delivered to client channel `cid`, in delivery
order: the contents of that client's channel. -/
def deliveredTo (cid : Nat) (l : List (Nat × RetInfo)) : List RetInfo :=
  (l.filter fun p => decide (p.1 = cid)).map Prod.snd

/-- The operation carried by the envelope panics with message `m` when invoked
on the envelope's arguments (it has one of the three shapes and its body
raises). -/
def OpFaults (ci : CallInfo) (m : String) : Prop :=
  match ci.f with
  | .f0 f => f ci.args = .error m
  | .f1 f => f ci.args = .error m
  | .fN f => f ci.args = .error m
  | .other _ => False

/-- The requested operation shape determined by a callback's shape in
`Client.AsynCall`'s type switch (`none` for an invalid callback, which
panics). -/
def cbShapeArg (cb : CbVal) : Option Nat :=
  match cb with
  | .cb0 _ => some 0
  | .cb1 _ => some 1
  | .cbN _ => some 2
  | .cbOther _ => none

/-- The inline invocation `Client.AsynCall` performs on its callback when the
internal call fails: the error together with a nil/empty result (the
`cbOther` branch is never used: an invalid callback panics instead). -/
def inlineErrInvoke (cb : CbVal) (e : Err) : CbInvoke :=
  match cb with
  | .cb0 t => .i0 t (some e)
  | .cb1 t => .i1 t .rnil (some e)
  | .cbN t => .iN t [] (some e)
  | .cbOther t => .i0 t (some e)

/-- A Return Envelope on which `Client.Cb` completes without panicking: its
callback has one of the three recognized shapes and, for a sequence-shaped
callback, its result is a (possibly empty) sequence rather than the nil
interface. -/
def processableB (ri : RetInfo) : Bool :=
  match ri.cb, ri.ret with
  | some (.cb0 _), _ => true
  | some (.cb1 _), _ => true
  | some (.cbN _), .rseq _ => true
  | _, _ => false

/-- The invocation `Client.Cb` performs on a processable Return Envelope. -/
def expectedInvoke (ri : RetInfo) : CbInvoke :=
  match ri.cb, ri.ret with
  | some (.cb0 t), _ => .i0 t ri.err
  | some (.cb1 t), _ => .i1 t ri.ret ri.err
  | some (.cbN t), .rseq l => .iN t l ri.err
  | some (.cbN t), _ => .iN t [] ri.err
  | _, _ => .i0 0 ri.err

/-- Whether a function value has one of the three shapes accepted by
`Server.Register`. -/
def validShape (f : FuncVal) : Bool :=
  match f with
  | .other _ => false
  | _ => true

/-- Whether a registered function matches the shape requested by `Client.f`'s
shape argument `n`. -/
def shapeMatches (n : Nat) (f : FuncVal) : Bool :=
  match n, f with
  | 0, .f0 _ => true
  | 1, .f1 _ => true
  | 2, .fN _ => true
  | _, _ => false

/-- A concrete shape-0 operation that completes normally, for witnesses. -/
def noop0 : FuncVal := .f0 fun _ => .ok ()

/-- A concrete shape-N operation whose body panics, for witnesses. -/
def boomN : FuncVal := .fN fun _ => .error "boom"

/-- Invariant of the trace model: per client, the dispatched envelopes
followed by the still-queued envelopes are exactly the submitted envelopes in
submission order (so dispatch order is submission order, per client), and the
client's channel holds exactly one Return Envelope per dispatched envelope,
in dispatch order (witnessed by the copied callback references). -/
def SysInv (s : Sys) : Prop :=
  ∀ cid : Nat,
    byClient cid s.execLog ++ byClient cid s.queue = byClient cid s.subLog ∧
    (deliveredTo cid s.delivered).map RetInfo.cb = (byClient cid s.execLog).map CallInfo.cb

lemma exec_sent_none (cfg : Conf) (ci : CallInfo) (h : ci.chanRet = none) :
    (Server.exec cfg ci).sent = [] := by
  rcases ci with ⟨f, args, cr, cb⟩
  simp only at h
  subst h
  cases f with
  | f0 f => cases h1 : f args <;> simp [Server.exec, execRaw, Server.ret, h1]
  | f1 f => cases h1 : f args <;> simp [Server.exec, execRaw, Server.ret, h1]
  | fN f => cases h1 : f args <;> simp [Server.exec, execRaw, Server.ret, h1]
  | other v => rfl

lemma exec_sent_some (cfg : Conf) (ci : CallInfo) (ch : Nat)
    (h : ci.chanRet = some ch) :
    ∃ r e, (Server.exec cfg ci).sent = [(ch, ⟨r, e, ci.cb⟩)] := by
  rcases ci with ⟨f, args, cr, cb⟩
  simp only at h
  subst h
  cases f with
  | f0 f =>
    cases h1 : f args with
    | ok u => exact ⟨.rnil, none, by simp [Server.exec, execRaw, h1, Server.ret]⟩
    | error m => exact ⟨.rnil, some (recoverErr cfg m), by simp [Server.exec, execRaw, h1, Server.ret]⟩
  | f1 f =>
    cases h1 : f args with
    | ok v => exact ⟨.rsingle v, none, by simp [Server.exec, execRaw, h1, Server.ret]⟩
    | error m => exact ⟨.rnil, some (recoverErr cfg m), by simp [Server.exec, execRaw, h1, Server.ret]⟩
  | fN f =>
    cases h1 : f args with
    | ok l => exact ⟨.rseq l, none, by simp [Server.exec, execRaw, h1, Server.ret]⟩
    | error m => exact ⟨.rnil, some (recoverErr cfg m), by simp [Server.exec, execRaw, h1, Server.ret]⟩
  | other v => exact ⟨.rnil, some (recoverErr cfg "bug"), rfl⟩


lemma sysInv_init : SysInv ⟨[], [], [], []⟩ := by
  intro cid; exact ⟨rfl, rfl⟩

lemma byClient_append (cid : Nat) (l l' : List CallInfo) :
    byClient cid (l ++ l') = byClient cid l ++ byClient cid l' := by
  simp [byClient, List.filter_append]

lemma byClient_cons_pos (cid : Nat) (ci : CallInfo) (l : List CallInfo)
    (h : ci.chanRet = some cid) :
    byClient cid (ci :: l) = ci :: byClient cid l := by
  simp [byClient, List.filter_cons, h]

lemma byClient_cons_neg (cid : Nat) (ci : CallInfo) (l : List CallInfo)
    (h : ¬ ci.chanRet = some cid) :
    byClient cid (ci :: l) = byClient cid l := by
  simp [byClient, List.filter_cons, h]

lemma deliveredTo_append (cid : Nat) (l l' : List (Nat × RetInfo)) :
    deliveredTo cid (l ++ l') = deliveredTo cid l ++ deliveredTo cid l' := by
  simp [deliveredTo, List.filter_append]

lemma deliveredTo_single_pos (cid : Nat) (ri : RetInfo) :
    deliveredTo cid [(cid, ri)] = [ri] := by
  simp [deliveredTo]

lemma deliveredTo_single_neg (cid ch : Nat) (ri : RetInfo) (h : ch ≠ cid) :
    deliveredTo cid [(ch, ri)] = [] := by
  simp [deliveredTo, h]

lemma byClient_nil (cid : Nat) : byClient cid [] = [] := rfl

lemma sysInv_step (cfg : Conf) (s : Sys) (a : Act) (h : SysInv s) :
    SysInv (sysStep cfg s a) := by
  cases a with
  | submit ci =>
    intro cid
    obtain ⟨h1, h2⟩ := h cid
    constructor
    · show byClient cid s.execLog ++ byClient cid (s.queue ++ [ci]) =
        byClient cid (s.subLog ++ [ci])
      rw [byClient_append, byClient_append, ← List.append_assoc, h1]
    · exact h2
  | dispatch =>
    cases hq : s.queue with
    | nil =>
      intro cid
      simpa [sysStep, hq] using h cid
    | cons ci rest =>
      have hstep : sysStep cfg s .dispatch =
          { s with
            queue := rest
            execLog := s.execLog ++ [ci]
            delivered := s.delivered ++ (Server.exec cfg ci).sent } := by
        simp [sysStep, hq]
      intro cid
      obtain ⟨h1, h2⟩ := h cid
      rw [hq] at h1
      rw [hstep]
      by_cases hc : ci.chanRet = some cid
      · obtain ⟨r, e, hs⟩ := exec_sent_some cfg ci cid hc
        constructor
        · show byClient cid (s.execLog ++ [ci]) ++ byClient cid rest =
            byClient cid s.subLog
          rw [byClient_append, byClient_cons_pos cid ci [] hc]
          rw [byClient_cons_pos cid ci rest hc] at h1
          simpa [List.append_assoc, byClient_nil] using h1
        · show (deliveredTo cid (s.delivered ++ (Server.exec cfg ci).sent)).map RetInfo.cb =
            (byClient cid (s.execLog ++ [ci])).map CallInfo.cb
          rw [hs, deliveredTo_append, deliveredTo_single_pos, byClient_append,
            byClient_cons_pos cid ci [] hc]
          simp [h2, byClient_nil]
      · constructor
        · show byClient cid (s.execLog ++ [ci]) ++ byClient cid rest =
            byClient cid s.subLog
          rw [byClient_append, byClient_cons_neg cid ci [] hc]
          rw [byClient_cons_neg cid ci rest hc] at h1
          simpa [byClient_nil] using h1
        · show (deliveredTo cid (s.delivered ++ (Server.exec cfg ci).sent)).map RetInfo.cb =
            (byClient cid (s.execLog ++ [ci])).map CallInfo.cb
          rcases hcr : ci.chanRet with _ | ch
          · rw [exec_sent_none cfg ci hcr, byClient_append,
              byClient_cons_neg cid ci [] hc]
            simpa [byClient_nil] using h2
          · obtain ⟨r, e, hs⟩ := exec_sent_some cfg ci ch hcr
            have hne : ch ≠ cid := by
              intro hh
              exact hc (by rw [hcr, hh])
            rw [hs, deliveredTo_append, deliveredTo_single_neg cid ch _ hne,
              byClient_append, byClient_cons_neg cid ci [] hc]
            simpa [byClient_nil] using h2

lemma sysRun_inv_aux (cfg : Conf) (acts : List Act) :
    ∀ s : Sys, SysInv s → SysInv (acts.foldl (sysStep cfg) s) := by
  induction acts with
  | nil => intro s h; exact h
  | cons a rest ih =>
    intro s h
    exact ih (sysStep cfg s a) (sysInv_step cfg s a h)

lemma sysRun_inv (cfg : Conf) (acts : List Act) : SysInv (sysRun cfg acts) :=
  sysRun_inv_aux cfg acts _ sysInv_init


lemma close_drain_eq (l : List CallInfo) (acc : List (Nat × RetInfo)) :
    l.foldl (fun acc ci => acc ++ (Server.ret ci ⟨.rnil, some .serverClosed, none⟩).2) acc =
      acc ++ l.filterMap (fun ci => ci.chanRet.map fun ch =>
        (ch, ⟨.rnil, some .serverClosed, ci.cb⟩)) := by
  induction l generalizing acc with
  | nil => simp
  | cons ci rest ih =>
    rcases hcr : ci.chanRet with _ | ch
    · have h2 : acc ++ (Server.ret ci ⟨.rnil, some .serverClosed, none⟩).2 = acc := by
        simp [Server.ret, hcr]
      rw [List.foldl_cons, h2, ih, List.filterMap_cons]
      simp [hcr]
    · have h2 : acc ++ (Server.ret ci ⟨.rnil, some .serverClosed, none⟩).2 =
            acc ++ [(ch, ⟨.rnil, some .serverClosed, ci.cb⟩)] := by
        simp [Server.ret, hcr]
      rw [List.foldl_cons, h2, ih, List.filterMap_cons]
      simp [hcr]

/-- C1: the claim states that a shape-N Return Envelope with a non-nil error
and nil result is returned by `Client.CallN` as `(nil, error)` and delivered
by `Client.Cb` to a sequence-shaped callback as `(nil, error)`, without
faulting. The code violates this: `CallN` and `Cb` run the unguarded type
assertion `ri.ret.([]interface\x7b\x7d)`, which panics on the nil interface.
This theorem exhibits the divergence: Exec's fault path produces exactly such
an envelope for a shape-N call, and both `CallN`'s receive phase and `Cb` on
a sequence-shaped callback fault on it instead of delivering the error. -/
theorem c1_callN_cb_fault_on_error_envelope :
    (Server.exec ⟨0⟩ ⟨boomN, [], some syncChan, none⟩).sent =
      [(syncChan, ⟨.rnil, some (.panicked "boom" false), none⟩)] ∧
    Client.callNrecv ⟨.rnil, some (.panicked "boom" false), none⟩ =
      .error "interface conversion: interface is nil, not a slice" ∧
    Client.cbRun ⟨[], [], 1⟩ ⟨.rnil, some .serverClosed, some (.cbN 7)⟩ =
      .error "interface conversion: interface is nil, not a slice" :=
  ⟨rfl, rfl, rfl⟩

/-- C2 (counterexample): the claim asserts exactly one Return Envelope per
consumed Call Envelope for every envelope the system creates, "since every
call path supplies a return channel". `Server.Go` creates envelopes with a
nil return channel, and `Server.Exec` delivers zero Return Envelopes for
such an envelope. -/
theorem c2_go_envelope_delivers_zero :
    ((Server.go ⟨[(.vstr "f", noop0)], [], 4, false⟩ (.vstr "f") []).chanCall.map
        CallInfo.chanRet = [none]) ∧
    (Server.exec ⟨0⟩ ⟨noop0, [], none, none⟩).sent = [] :=
  ⟨rfl, rfl⟩

/-- C2 (amended): `Server.Exec` produces exactly one Return Envelope for every
Call Envelope carrying a non-nil return channel — never zero, never more than
one, whether the operation completes normally or faults — and zero for an
envelope with a nil return channel (as created by `Server.Go`). -/
theorem c2_exec_return_count (cfg : Conf) (ci : CallInfo) :
    (∀ ch, ci.chanRet = some ch → (Server.exec cfg ci).sent.length = 1) ∧
    (ci.chanRet = none → (Server.exec cfg ci).sent = []) := by
  constructor
  · intro ch h
    obtain ⟨r, e, hs⟩ := exec_sent_some cfg ci ch h
    rw [hs]
    rfl
  · intro h
    exact exec_sent_none cfg ci h

/-- C2 (witness): a concrete envelope with a return channel receives exactly
one Return Envelope. -/
theorem c2_exec_return_count_witness :
    (Server.exec ⟨0⟩ ⟨noop0, [], some 5, none⟩).sent.length = 1 :=
  (c2_exec_return_count ⟨0⟩ ⟨noop0, [], some 5, none⟩).1 5 rfl

/-- C3: when an operation body raises during `Server.Exec`, the fault is
caught at the dispatcher boundary (it escapes `execRaw`, the body without the
deferred recover, but not `Server.exec`), converted into an error value whose
trace annotation is present exactly when `conf.LenStackBuf > 0`, and that
error is both returned by Exec and delivered as the call's Return Envelope
error on the envelope's return channel. -/
theorem c3_fault_converted_and_delivered (cfg : Conf) (ci : CallInfo) (m : String)
    (ch : Nat) (hf : OpFaults ci m) (hc : ci.chanRet = some ch) :
    execRaw ci = .error m ∧
    Server.exec cfg ci =
      ⟨some (recoverErr cfg m), [(ch, ⟨.rnil, some (recoverErr cfg m), ci.cb⟩)]⟩ ∧
    recoverErr cfg m = .panicked m (decide (0 < cfg.lenStackBuf)) := by
  rcases ci with ⟨f, args, cr, cb⟩
  simp only at hc
  subst hc
  cases f with
  | f0 f =>
    simp only [OpFaults] at hf
    refine ⟨by simp [execRaw, hf], by simp [Server.exec, execRaw, hf, Server.ret], rfl⟩
  | f1 f =>
    simp only [OpFaults] at hf
    refine ⟨by simp [execRaw, hf], by simp [Server.exec, execRaw, hf, Server.ret], rfl⟩
  | fN f =>
    simp only [OpFaults] at hf
    refine ⟨by simp [execRaw, hf], by simp [Server.exec, execRaw, hf, Server.ret], rfl⟩
  | other v =>
    simp only [OpFaults] at hf

/-- C3 (witness): a concrete faulting shape-N operation, with trace capture
enabled (`LenStackBuf = 2`), yields the annotated error both as Exec's return
value and on the synchronous channel. -/
theorem c3_fault_converted_witness :
    Server.exec ⟨2⟩ ⟨boomN, [], some syncChan, none⟩ =
      ⟨some (.panicked "boom" true), [(syncChan, ⟨.rnil, some (.panicked "boom" true), none⟩)]⟩ :=
  (c3_fault_converted_and_delivered ⟨2⟩ ⟨boomN, [], some syncChan, none⟩ "boom" syncChan
    (by simp [OpFaults, boomN]) rfl).2.1

/-- C5: `Server.Close` closes the queue against further pushes and drains it:
afterwards the queue is empty and marked closed, the registry is untouched
(already-dispatched envelopes are unaffected), and the deliveries are exactly
one "server closed" Return Envelope per resident envelope that carries a
return channel, on that channel, with a nil result and the envelope's
callback — the operations themselves are never executed (the deliveries do
not depend on the envelopes' function fields). -/
theorem c5_close_drains_with_server_closed (s : Server) :
    (Server.close s).1.closed = true ∧
    (Server.close s).1.chanCall = [] ∧
    (Server.close s).1.functions = s.functions ∧
    (Server.close s).2 =
      s.chanCall.filterMap (fun ci => ci.chanRet.map fun ch =>
        (ch, ⟨.rnil, some .serverClosed, ci.cb⟩)) := by
  refine ⟨rfl, rfl, rfl, ?_⟩
  simpa [Server.close] using close_drain_eq s.chanCall []

/-- C10: an envelope whose function field has none of the three registered
shapes drives `Server.Exec`'s type switch past all cases into the internal
`panic("bug")`; the panic escapes the body (`execRaw`) but is recovered by
the deferred handler, converted into an error that Exec returns, and
delivered as a Return Envelope when the envelope has a return channel
(skipped when it does not) — so Exec itself returns normally. -/
theorem c10_exec_recovers_unmatched_shape (cfg : Conf) (ci : CallInfo) (v : Val)
    (h : ci.f = .other v) :
    execRaw ci = .error "bug" ∧
    (Server.exec cfg ci).returned = some (recoverErr cfg "bug") ∧
    (∀ ch, ci.chanRet = some ch →
      (Server.exec cfg ci).sent = [(ch, ⟨.rnil, some (recoverErr cfg "bug"), ci.cb⟩)]) ∧
    (ci.chanRet = none → (Server.exec cfg ci).sent = []) := by
  rcases ci with ⟨f, args, cr, cb⟩
  simp only at h
  subst h
  refine ⟨rfl, rfl, ?_, ?_⟩
  · intro ch hch
    simp only at hch
    subst hch
    rfl
  · intro hch
    simp only at hch
    subst hch
    rfl

/-- C10 (witness): a concrete unmatched-shape envelope with a return channel
receives the converted "bug" error. -/
theorem c10_exec_recovers_witness :
    (Server.exec ⟨0⟩ ⟨.other .vnil, [], some 3, none⟩).sent =
      [(3, ⟨.rnil, some (.panicked "bug" false), none⟩)] :=
  (c10_exec_recovers_unmatched_shape ⟨0⟩ ⟨.other .vnil, [], some 3, none⟩ .vnil rfl).2.2.1 3 rfl

lemma call_ok_shape (s : Server) (ci : CallInfo) (b : Bool) (s' : Server)
    (h : Client.call s ci b = .ok s') :
    s' = { s with chanCall := s.chanCall ++ [ci] } := by
  unfold Client.call at h
  split_ifs at h <;> simp_all

lemma asynCall_ok_spec (s : Server) (c : Client) (id : Val) (args : List Val)
    (cb : CbVal) (n : Nat) (s' : Server) (c' : Client)
    (h : Client.asynCall s c id args cb n = .ok (s', c')) :
    c' = { c with pendingAsynCall := c.pendingAsynCall + 1 } ∧
    ∃ f, Client.f s id n = .ok f ∧
      s' = { s with chanCall := s.chanCall ++ [⟨f, args, some asynChan, some cb⟩] } := by
  unfold Client.asynCall at h
  cases hf : Client.f s id n with
  | error e => simp only [hf] at h; cases h
  | ok f =>
    simp only [hf] at h
    cases hc : Client.call s ⟨f, args, some asynChan, some cb⟩ false with
    | error e => simp only [hc] at h; cases h
    | ok s2 =>
      simp only [hc] at h
      simp only [Except.ok.injEq, Prod.mk.injEq] at h
      obtain ⟨h1, h2⟩ := h
      subst h1
      subst h2
      exact ⟨rfl, f, rfl, call_ok_shape s _ false s2 hc⟩

/-- C4: every asynchronous call that fails before enqueueing — unknown id,
callback/shape mismatch, queue full, or queue closed (the error cases of the
internal `asynCall`: resolution by `Client.f` or the non-blocking push by
`Client.call`) — makes `Client.AsynCall` invoke the supplied callback
immediately and inline on the calling thread with the error and a nil/empty
result, leaving the server queue and the pending-async-call counter exactly
as they were; the counter is incremented (by the internal `asynCall`) only on
a successful non-blocking enqueue, which also appends exactly the one new
envelope to the queue. -/
theorem c4_asynCall_inline_error (s : Server) (c : Client) (id : Val) (args : List Val)
    (cb : CbVal) (n : Nat) (hn : cbShapeArg cb = some n) :
    (∀ e, Client.asynCall s c id args cb n = .error e →
      Client.AsynCall s c id args cb = ⟨s, c, [inlineErrInvoke cb e], none⟩) ∧
    (∀ s' c', Client.asynCall s c id args cb n = .ok (s', c') →
      Client.AsynCall s c id args cb = ⟨s', c', [], none⟩ ∧
      c' = { c with pendingAsynCall := c.pendingAsynCall + 1 } ∧
      ∃ f, Client.f s id n = .ok f ∧
        s' = { s with chanCall := s.chanCall ++ [⟨f, args, some asynChan, some cb⟩] }) := by
  cases cb with
  | cb0 t =>
    simp only [cbShapeArg, Option.some.injEq] at hn
    subst hn
    constructor
    · intro e he
      simp [Client.AsynCall, he, inlineErrInvoke]
    · intro s' c' hok
      refine ⟨by simp [Client.AsynCall, hok], asynCall_ok_spec s c id args _ 0 s' c' hok⟩
  | cb1 t =>
    simp only [cbShapeArg, Option.some.injEq] at hn
    subst hn
    constructor
    · intro e he
      simp [Client.AsynCall, he, inlineErrInvoke]
    · intro s' c' hok
      refine ⟨by simp [Client.AsynCall, hok], asynCall_ok_spec s c id args _ 1 s' c' hok⟩
  | cbN t =>
    simp only [cbShapeArg, Option.some.injEq] at hn
    subst hn
    constructor
    · intro e he
      simp [Client.AsynCall, he, inlineErrInvoke]
    · intro s' c' hok
      refine ⟨by simp [Client.AsynCall, hok], asynCall_ok_spec s c id args _ 2 s' c' hok⟩
  | cbOther t =>
    simp [cbShapeArg] at hn

/-- C4 (witness): a concrete asynchronous call on an unknown id invokes the
callback inline with the "not registered" error and leaves the server and the
counter untouched. -/
theorem c4_asynCall_inline_error_witness :
    Client.AsynCall ⟨[], [], 3, false⟩ ⟨[], [], 0⟩ (.vstr "f") [] (.cb0 1) =
      ⟨⟨[], [], 3, false⟩, ⟨[], [], 0⟩, [.i0 1 (some (.notRegistered (.vstr "f")))], none⟩ :=
  (c4_asynCall_inline_error ⟨[], [], 3, false⟩ ⟨[], [], 0⟩ (.vstr "f") [] (.cb0 1) 0
    rfl).1 (.notRegistered (.vstr "f")) rfl

lemma cbRun_ok_of_processable (c : Client) (ri : RetInfo) (h : processableB ri = true) :
    Client.cbRun c ri =
      .ok (expectedInvoke ri, { c with pendingAsynCall := c.pendingAsynCall - 1 }) := by
  rcases hcb : ri.cb with _ | cb
  · simp [processableB, hcb] at h
  · cases cb with
    | cb0 t => simp [Client.cbRun, expectedInvoke, hcb]
    | cb1 t => simp [Client.cbRun, expectedInvoke, hcb]
    | cbN t =>
      rcases hrt : ri.ret with _ | v | l
      · simp [processableB, hcb, hrt] at h
      · simp [processableB, hcb, hrt] at h
      · simp [Client.cbRun, expectedInvoke, hcb, hrt, assertSeq]
    | cbOther t => simp [processableB, hcb] at h

/-- C6 (counterexample): the claim, at N = 1, with the asynchronous channel
receiving exactly one Return Envelope for the one pending call. The envelope
is the system's own "server closed" acknowledgement of a pending sequence-
shaped asynchronous call (nil result, sequence-shaped callback); `Close`
panics inside `Cb`'s type assertion instead of invoking the callback, so
zero of the one callback runs and the counter never reaches 0. -/
theorem c6_close_faults_counterexample :
    Client.closeLoop ⟨[], [], 1⟩ [⟨.rnil, some .serverClosed, some (.cbN 5)⟩] =
      .panicked [] "interface conversion: interface is nil, not a slice" := rfl

/-- C6 (amended): for a client whose pending-async-call counter is N and whose
asynchronous channel yields exactly one Return Envelope per pending call,
provided every received envelope is processable by `Cb` without faulting
(its callback has one of the three shapes and a sequence-shaped callback is
paired with a non-nil sequence result), `Client.Close` invokes each of the N
callbacks exactly once, in order, and returns with the counter at 0. -/
theorem c6_close_drains_processable (c : Client) (stream : List RetInfo)
    (hn : c.pendingAsynCall = stream.length)
    (hp : stream.all processableB = true) :
    Client.closeLoop c stream =
      .done (stream.map expectedInvoke) { c with pendingAsynCall := 0 } := by
  induction stream generalizing c with
  | nil =>
    rcases c with ⟨cs, ca, p⟩
    simp only [List.length_nil, Nat.cast_zero] at hn
    subst hn
    simp [Client.closeLoop]
  | cons ri rest ih =>
    have hpos : ¬ c.pendingAsynCall ≤ 0 := by
      rw [hn]
      simp only [List.length_cons]
      omega
    have hp' : processableB ri = true ∧ rest.all processableB = true := by
      simpa [List.all_cons] using hp
    rw [Client.closeLoop, if_neg hpos]
    simp only [cbRun_ok_of_processable c ri hp'.1]
    rw [ih { c with pendingAsynCall := c.pendingAsynCall - 1 }
      (by show c.pendingAsynCall - 1 = (rest.length : Int)
          rw [hn]
          simp only [List.length_cons]
          push_cast
          ring)
      hp'.2]
    rfl

/-- C6 (witness): two pending calls drained through `Close`: both callbacks
run exactly once, in order, and the counter ends at 0. -/
theorem c6_close_drains_witness :
    Client.closeLoop ⟨[], [], 2⟩
        [⟨.rnil, some .serverClosed, some (.cb0 1)⟩, ⟨.rseq [.vint 4], none, some (.cbN 2)⟩] =
      .done [.i0 1 (some .serverClosed), .iN 2 [.vint 4] none] ⟨[], [], 0⟩ :=
  c6_close_drains_processable ⟨[], [], 2⟩
    [⟨.rnil, some .serverClosed, some (.cb0 1)⟩, ⟨.rseq [.vint 4], none, some (.cbN 2)⟩]
    (by decide) (by decide)

/-- C7: `Server.Register` panics (the model's `Except.error`, carrying the
panic message and no updated state, so the registry is unchanged on the fatal
paths) when the operation has none of the three fixed shapes or when the id
is already present; otherwise it stores the mapping. -/
theorem c7_register_contract (s : Server) (id : Val) (f : FuncVal) :
    (validShape f = false → s.register id f = .error "definition of function is invalid") ∧
    (validShape f = true → (lookupFn s.functions id).isSome = true →
      s.register id f = .error "already registered") ∧
    (validShape f = true → (lookupFn s.functions id).isSome = false →
      s.register id f = .ok { s with functions := s.functions ++ [(id, f)] }) := by
  refine ⟨?_, ?_, ?_⟩
  · intro hv
    cases f with
    | other v => rfl
    | f0 g => simp [validShape] at hv
    | f1 g => simp [validShape] at hv
    | fN g => simp [validShape] at hv
  · intro hv hl
    cases f with
    | other v => simp [validShape] at hv
    | f0 g => simp [Server.register, hl]
    | f1 g => simp [Server.register, hl]
    | fN g => simp [Server.register, hl]
  · intro hv hl
    cases f with
    | other v => simp [validShape] at hv
    | f0 g => simp [Server.register, hl]
    | f1 g => simp [Server.register, hl]
    | fN g => simp [Server.register, hl]

/-- C7 (witness): an invalid shape is fatal, a duplicate id is fatal, and a
fresh valid registration stores the mapping. -/
theorem c7_register_witness :
    Server.register ⟨[], [], 1, false⟩ (.vstr "a") (.other .vnil) =
      .error "definition of function is invalid" ∧
    Server.register ⟨[(.vstr "a", noop0)], [], 1, false⟩ (.vstr "a") noop0 =
      .error "already registered" ∧
    Server.register ⟨[], [], 1, false⟩ (.vstr "a") noop0 =
      .ok ⟨[(.vstr "a", noop0)], [], 1, false⟩ :=
  ⟨(c7_register_contract ⟨[], [], 1, false⟩ (.vstr "a") (.other .vnil)).1 rfl,
   (c7_register_contract ⟨[(.vstr "a", noop0)], [], 1, false⟩ (.vstr "a") noop0).2.1 rfl rfl,
   (c7_register_contract ⟨[], [], 1, false⟩ (.vstr "a") noop0).2.2 rfl rfl⟩

lemma clientF_spec (s : Server) (id : Val) (n : Nat) :
    Client.f s id n =
      match lookupFn s.functions id with
      | none => .error (.notRegistered id)
      | some g => if shapeMatches n g then .ok g else .error (.retTypeMismatch id) := by
  unfold Client.f
  cases lookupFn s.functions id with
  | none => rfl
  | some g => rfl

/-- C8: each synchronous call `Call0`/`Call1`/`CallN` whose resolution fails —
the id is not registered, or the registered operation's shape does not match
the requested shape — returns that resolution error immediately, with the
server (queue included) returned exactly unchanged: nothing is pushed. -/
theorem c8_sync_resolution_error_no_push (s : Server) (id : Val) (args : List Val) :
    (lookupFn s.functions id = none →
      Client.call0submit s id args = (some (.notRegistered id), s) ∧
      Client.call1submit s id args = (some (.notRegistered id), s) ∧
      Client.callNsubmit s id args = (some (.notRegistered id), s)) ∧
    (∀ g, lookupFn s.functions id = some g →
      (shapeMatches 0 g = false →
        Client.call0submit s id args = (some (.retTypeMismatch id), s)) ∧
      (shapeMatches 1 g = false →
        Client.call1submit s id args = (some (.retTypeMismatch id), s)) ∧
      (shapeMatches 2 g = false →
        Client.callNsubmit s id args = (some (.retTypeMismatch id), s))) := by
  constructor
  · intro h
    refine ⟨?_, ?_, ?_⟩ <;>
      simp [Client.call0submit, Client.call1submit, Client.callNsubmit, clientF_spec, h]
  · intro g hg
    refine ⟨?_, ?_, ?_⟩ <;> intro hm <;>
      simp [Client.call0submit, Client.call1submit, Client.callNsubmit, clientF_spec, hg, hm]

/-- C8 (witness): an unknown id fails `Call0` and a shape mismatch fails
`Call1`, both leaving the concrete server unchanged. -/
theorem c8_sync_resolution_error_witness :
    Client.call0submit ⟨[(.vstr "a", noop0)], [], 1, false⟩ (.vstr "b") [] =
      (some (.notRegistered (.vstr "b")), ⟨[(.vstr "a", noop0)], [], 1, false⟩) ∧
    Client.call1submit ⟨[(.vstr "a", noop0)], [], 1, false⟩ (.vstr "a") [] =
      (some (.retTypeMismatch (.vstr "a")), ⟨[(.vstr "a", noop0)], [], 1, false⟩) :=
  ⟨((c8_sync_resolution_error_no_push ⟨[(.vstr "a", noop0)], [], 1, false⟩ (.vstr "b") []).1
      rfl).1,
   (((c8_sync_resolution_error_no_push ⟨[(.vstr "a", noop0)], [], 1, false⟩ (.vstr "a") []).2
      noop0 rfl).2.1 rfl)⟩

/-- C9: in the trace model — any interleaving of successful submissions by any
clients with dispatches by the single owner loop over the server's one FIFO
call queue — for every client channel `cid`: the envelopes dispatched so far
followed by those still queued are exactly that client's submissions in
submission order (so execution order is submission order, per client), and
the Return Envelopes on that client's asynchronous channel correspond
one-to-one, in order (witnessed by the copied callback references), to that
client's dispatched envelopes: FIFO per client, for any interleaving. -/
theorem c9_fifo_per_client (cfg : Conf) (acts : List Act) (cid : Nat) :
    byClient cid (sysRun cfg acts).execLog ++ byClient cid (sysRun cfg acts).queue =
      byClient cid (sysRun cfg acts).subLog ∧
    (deliveredTo cid (sysRun cfg acts).delivered).map RetInfo.cb =
      (byClient cid (sysRun cfg acts).execLog).map CallInfo.cb :=
  sysRun_inv cfg acts cid
